import Mathlib

/-!
Verification of the ghorg `clone` command orchestrator (`cmd/clone.go`)
against its natural-language specification.

The Go source is shallowly embedded: pure string manipulation becomes Lean
functions on `String` / `List Char`, the per-repository worker body of
`CloneAllRepos` becomes a pure function from the results of the external
git/stat collaborators to an outcome record, and the process-level control
flow (early `os.Exit` calls) becomes an explicit exit-code value.

External collaborators (the `git`, `scm`, `configs`, `limiter` packages and
the Go standard library) are modelled as oracle inputs: a `stat` function,
a per-repository git-operation result function, the parsed ignore file, and
boolean outcomes for the pre-flight checks.
-/

namespace Ghorg

/-! ## List-of-characters helpers (models of Go `strings` primitives) -/

/-- `prefAt s t` holds when `s` is a prefix of `t` (model of the prefix test
underlying Go's `strings.HasPrefix`). -/
def prefAt : List Char → List Char → Bool
  | [], _ => true
  | _ :: _, [] => false
  | a :: s, b :: t => a == b && prefAt s t

theorem prefAt_iff (s t : List Char) : prefAt s t = true ↔ ∃ post, t = s ++ post := by
  induction s generalizing t with
  | nil => simp [prefAt]
  | cons a s ih =>
    cases t with
    | nil => simp [prefAt]
    | cons b t =>
      simp only [prefAt, Bool.and_eq_true, beq_iff_eq, ih, List.cons_append, List.cons.injEq]
      constructor
      · rintro ⟨rfl, post, rfl⟩
        exact ⟨post, rfl, rfl⟩
      · rintro ⟨post, rfl, rfl⟩
        exact ⟨rfl, post, rfl⟩

/-- `occursL s t` holds when `s` occurs as a contiguous run inside `t`
(model of Go's `strings.Contains(t, s)`). -/
def occursL (s : List Char) : List Char → Bool
  | [] => prefAt s []
  | c :: t => prefAt s (c :: t) || occursL s t

theorem occursL_iff (s t : List Char) :
    occursL s t = true ↔ ∃ pre post, t = pre ++ s ++ post := by
  induction t with
  | nil =>
    simp only [occursL, prefAt_iff]
    constructor
    · rintro ⟨post, h⟩
      rcases List.append_eq_nil.mp h.symm with ⟨hs, hp⟩
      exact ⟨[], [], by simp [hs, hp]⟩
    · rintro ⟨pre, post, h⟩
      rcases List.append_eq_nil.mp h.symm with ⟨h1, hp⟩
      rcases List.append_eq_nil.mp h1 with ⟨hpre, hs⟩
      exact ⟨[], by simp [hs]⟩
  | cons c t ih =>
    simp only [occursL, Bool.or_eq_true, prefAt_iff, ih]
    constructor
    · rintro (⟨post, h⟩ | ⟨pre, post, h⟩)
      · exact ⟨[], post, by simp [h]⟩
      · exact ⟨c :: pre, post, by simp [h]⟩
    · rintro ⟨pre, post, h⟩
      cases pre with
      | nil => exact Or.inl ⟨post, by simpa using h⟩
      | cons d pre =>
        simp only [List.cons_append, List.cons.injEq] at h
        exact Or.inr ⟨pre, post, h.2⟩

/-- `hasSuffix s suf` models Go's `strings.HasSuffix(s, suf)`. -/
def hasSuffix (s suf : String) : Bool :=
  prefAt suf.toList.reverse s.toList.reverse

/-- Splitting a character list at every occurrence of `sep`; model of Go's
`strings.Split` with a one-character separator (always returns at least one
piece, pieces do not contain `sep`). -/
def splitOnChar (sep : Char) : List Char → List (List Char)
  | [] => [[]]
  | c :: rest =>
    let r := splitOnChar sep rest
    if c = sep then [] :: r else (c :: r.headD []) :: r.tail

theorem splitOnChar_ne_nil (sep : Char) (l : List Char) : splitOnChar sep l ≠ [] := by
  cases l with
  | nil => simp [splitOnChar]
  | cons c rest =>
    simp only [splitOnChar]
    split <;> simp

theorem splitOnChar_sep_free (sep : Char) (l : List Char) (h : sep ∉ l) :
    splitOnChar sep l = [l] := by
  induction l with
  | nil => simp [splitOnChar]
  | cons c rest ih =>
    have hc : c ≠ sep := fun hh => h (by simp [hh])
    have hr : sep ∉ rest := fun hh => h (by simp [hh])
    simp [splitOnChar, ih hr, hc]

theorem splitOnChar_append_sep (sep : Char) (x y : List Char) :
    splitOnChar sep (x ++ sep :: y) = splitOnChar sep x ++ splitOnChar sep y := by
  induction x with
  | nil => simp [splitOnChar]
  | cons a x ih =>
    cases h : splitOnChar sep x with
    | nil => exact absurd h (splitOnChar_ne_nil sep x)
    | cons hx tx =>
      by_cases ha : a = sep <;>
        simp [splitOnChar, ih, h, ha]

/-- Joining pieces with a separator character; model of Go's `strings.Join`
with a one-character separator. -/
def joinWithChar (sep : Char) : List (List Char) → List Char
  | [] => []
  | [x] => x
  | x :: y :: rest => x ++ sep :: joinWithChar sep (y :: rest)

theorem joinWithChar_cons_cons (sep c : Char) (h : List Char) (t : List (List Char)) :
    joinWithChar sep ((c :: h) :: t) = c :: joinWithChar sep (h :: t) := by
  cases t <;> simp [joinWithChar]

theorem joinWithChar_splitOnChar (sep : Char) (l : List Char) :
    joinWithChar sep (splitOnChar sep l) = l := by
  induction l with
  | nil => simp [splitOnChar, joinWithChar]
  | cons c rest ih =>
    cases h : splitOnChar sep rest with
    | nil => exact absurd h (splitOnChar_ne_nil sep rest)
    | cons hr tr =>
      rw [h] at ih
      by_cases hc : c = sep
      · simp [splitOnChar, h, hc, joinWithChar, ih]
      · simp [splitOnChar, h, hc, joinWithChar_cons_cons, ih]

/-! ## `getAppNameFromURL` (cmd/clone.go lines 239-244)

```go
func getAppNameFromURL(url string) string {
    withGit := strings.Split(url, "/")
    appName := withGit[len(withGit)-1]
    split := strings.Split(appName, ".")
    return strings.Join(split[0:len(split)-1], ".")
}
``` -/

def getAppNameFromURL (url : String) : String :=
  let withGit := splitOnChar '/' url.toList
  let appName := withGit.getLastD []
  let parts := splitOnChar '.' appName
  String.mk (joinWithChar '.' parts.dropLast)

theorem getLastD_concat' {α : Type} (d y : α) (xs : List α) :
    (xs ++ [y]).getLastD d = y := by
  induction xs with
  | nil => rfl
  | cons a xs ih =>
    cases xs with
    | nil => rfl
    | cons b xs => simpa using ih

/-- C9: the claim states that for a URL whose last path segment contains no
dot, `getAppNameFromURL` returns the segment itself rather than the empty
string.  On the concrete input `"https://host/org/app"` the code returns
`""` (it joins all but the last dot-separated piece, and a dot-free segment
has exactly one piece), so the claim is false as stated. -/
theorem c9_counterexample :
    getAppNameFromURL "https://host/org/app" = "" ∧
    getAppNameFromURL "https://host/org/app" ≠ "app" := by
  decide

/-- C9 (amended): the derived app-name of a URL equals its last
'/'-segment with the final dot-extension removed ('.../org/app.git' yields
'app'); when the last segment contains no dot the result is the empty
string, not the segment itself. -/
theorem c9_app_name_amended (pre seg : List Char) (hsep : '/' ∉ seg) :
    (('.' ∉ seg) → getAppNameFromURL (String.mk (pre ++ '/' :: seg)) = "") ∧
    (∀ name ext : List Char, seg = name ++ '.' :: ext → '.' ∉ ext →
      getAppNameFromURL (String.mk (pre ++ '/' :: seg)) = String.mk name) := by
  have hto : (String.mk (pre ++ '/' :: seg)).toList = pre ++ '/' :: seg := rfl
  constructor
  · intro hdot
    simp only [getAppNameFromURL]
    rw [hto, splitOnChar_append_sep, splitOnChar_sep_free _ _ hsep, getLastD_concat',
      splitOnChar_sep_free _ _ hdot]
    rfl
  · intro name ext hseg hdot
    simp only [getAppNameFromURL]
    rw [hto, splitOnChar_append_sep, splitOnChar_sep_free _ _ hsep, getLastD_concat',
      hseg, splitOnChar_append_sep, splitOnChar_sep_free _ _ hdot, List.dropLast_concat,
      joinWithChar_splitOnChar]

/-- Witness for `c9_app_name_amended` at the concrete URL of the claim. -/
theorem c9_app_name_amended_witness :
    getAppNameFromURL "https://host/org/app.git" = "app" := by
  have h := (c9_app_name_amended "https://host/org".toList "app.git".toList
      (by decide)).2 "app".toList "git".toList (by decide) (by decide)
  have e1 : String.mk ("https://host/org".toList ++ '/' :: "app.git".toList) =
      "https://host/org/app.git" := by decide
  have e2 : String.mk "app".toList = "app" := by decide
  rw [e1, e2] at h
  exact h

/-! ## Data model -/

/-- One version-control operation of the `git.Gitter` collaborator. -/
inductive GitOp
  | clone
  | checkout
  | clean
  | reset
  | pull
  | fetchAll
  | setOrigin
  | updateRemote
deriving DecidableEq

/-- Repository descriptor (`scm.Repo`): the fields `CloneAllRepos` reads. -/
structure Repo where
  url : String
  path : String := ""
  isWiki : Bool := false
  cloneBranch : String := ""
  hostPath : String := ""
deriving DecidableEq

/-- The regex patterns modelled: a literal string (matches exactly itself)
and `c*` (matches any run of the character `c`, including the empty run).
The Go code compiles `GHORG_MATCH_REGEX` with `regexp.MustCompile`; this
small fragment is enough to express the claims about the filter. -/
inductive RePat
  | lit (s : List Char)
  | star (c : Char)
deriving DecidableEq

/-- A string matched (in full) by a pattern. -/
def MatchesL : RePat → List Char → Prop
  | .lit s, mid => mid = s
  | .star c, mid => ∀ x ∈ mid, x = c

/-- Model of Go's `regexp.FindString`: the leftmost match of the pattern,
where a result of `[]` means "no match or an empty leftmost match" (Go's
`FindString` cannot distinguish the two).  For a literal the leftmost match
is the literal itself when it occurs; for `c*` the leftmost match is at
position 0 and greedily takes the maximal run of `c` there. -/
def findStringL : RePat → List Char → List Char
  | .lit s, t => if occursL s t then s else []
  | .star c, t => t.takeWhile (fun x => x == c)

/-- Environment/flag snapshot read by `cloneFunc`/`CloneAllRepos`
(`GHORG_*` variables).  `matchRegex = none` models an empty
`GHORG_MATCH_REGEX`; `concurrency` is the raw `GHORG_CONCURRENCY` string. -/
structure Config where
  absRoot : String := "/clones"
  parentFolder : String := "org"
  preserveDir : Bool := false
  backup : Bool := false
  noClean : Bool := false
  fetchAll : Bool := false
  branch : String := ""
  dryRun : Bool := false
  matchRegex : Option RePat := none
  concurrency : String := "25"

/-- Result of `os.Stat` on a path, as far as `repoExistsLocally` can
observe it: success, an error satisfying `os.IsNotExist`, or any other
error (permission, I/O, ...). -/
inductive StatResult
  | ok
  | errNotExist
  | errOther
deriving DecidableEq

/-- `repoExistsLocally` (cmd/clone.go lines 231-237): report "exists"
unless the stat error satisfies `os.IsNotExist`.

```go
func repoExistsLocally(repo scm.Repo) bool {
    if _, err := os.Stat(repo.HostPath); os.IsNotExist(err) {
        return false
    }
    return true
}
``` -/
def repoExistsLocally (st : StatResult) : Bool :=
  match st with
  | .errNotExist => false
  | _ => true

/-- The `path` variable of the worker body (cmd/clone.go lines 400-403):
the preserved provider path when enabled and non-empty, else the app-name. -/
def pathPart (cfg : Config) (repo : Repo) : String :=
  if repo.path ≠ "" ∧ cfg.preserveDir then repo.path else getAppNameFromURL repo.url

/-- Model of `filepath.Join` on clean, separator-free components (the
separator component returned by `configs.GetCorrectFilePathSeparator`,
which `Join` collapses away, is omitted). -/
def joinPath (parts : List String) : String :=
  String.intercalate "/" (parts.filter (fun p => p ≠ ""))

/-- Resolution of `repo.HostPath` (cmd/clone.go lines 405-415): base join,
then a `.wiki` suffix for wikis (unless already present), then — when
backup mode is active — a full recomputation into the `_backup` parent
folder that starts again from `path`. -/
def resolveHostPath (cfg : Config) (repo : Repo) : String :=
  let base := joinPath [cfg.absRoot, cfg.parentFolder, pathPart cfg repo]
  let withWiki :=
    if repo.isWiki then (if hasSuffix base ".wiki" then base else base ++ ".wiki") else base
  if cfg.backup then
    joinPath [cfg.absRoot, cfg.parentFolder ++ "_backup", pathPart cfg repo]
  else withWiki

/-- Everything one execution of the worker body does that the claims
mention: the git operations attempted (in order), which operation's
failure was recorded in `cloneInfos` / `cloneErrors`, the increments of
`cloneCount` / `pulledCount`, and the label of the final success print
(`none` when the worker returned early on a failure). -/
structure Outcome where
  ops : List GitOp := []
  infos : List GitOp := []
  errors : List GitOp := []
  cloneInc : Nat := 0
  pullInc : Nat := 0
  successLabel : Option String := none
deriving DecidableEq

/-- The worker body submitted to the concurrency limiter
(cmd/clone.go lines 398-550), as a pure function of the repository, the
configuration, the stat oracle and the git-operation result oracle
(`g op = true` means the operation succeeded).  Each early `return` of the
Go code is a leaf of the conditional tree. -/
def processRepo (cfg : Config) (g : GitOp → Bool) (stat : String → StatResult)
    (target : Repo) : Outcome :=
  let hp := resolveHostPath cfg target
  if repoExistsLocally (stat hp) then
    if cfg.backup then
      if g GitOp.updateRemote = false then
        if target.isWiki then
          { ops := [.updateRemote], infos := [.updateRemote] }
        else
          { ops := [.updateRemote], errors := [.updateRemote] }
      else
        { ops := [.updateRemote], successLabel := some "cloning" }
    else if cfg.noClean then
      if g GitOp.fetchAll = false then
        if target.isWiki then
          { ops := [.fetchAll], infos := [.fetchAll] }
        else
          { ops := [.fetchAll], errors := [.fetchAll] }
      else
        { ops := [.fetchAll], successLabel := some "fetching" }
    else
      if g GitOp.checkout = false then
        { ops := [.checkout], infos := [.checkout] }
      else if g GitOp.clean = false then
        { ops := [.checkout, .clean], errors := [.clean] }
      else if g GitOp.reset = false then
        { ops := [.checkout, .clean, .reset], errors := [.reset] }
      else if g GitOp.pull = false then
        { ops := [.checkout, .clean, .reset, .pull], errors := [.pull] }
      else if cfg.fetchAll then
        if g GitOp.fetchAll = false then
          { ops := [.checkout, .clean, .reset, .pull, .fetchAll],
            errors := [.fetchAll], pullInc := 1 }
        else
          { ops := [.checkout, .clean, .reset, .pull, .fetchAll],
            pullInc := 1, successLabel := some "pulling" }
      else
        { ops := [.checkout, .clean, .reset, .pull],
          pullInc := 1, successLabel := some "pulling" }
  else
    if g GitOp.clone = false then
      if target.isWiki then
        { ops := [.clone], infos := [.clone] }
      else
        { ops := [.clone], errors := [.clone] }
    else if cfg.branch ≠ "" ∧ g GitOp.checkout = false then
      { ops := [.clone, .checkout], infos := [.checkout] }
    else
      let opsHead := if cfg.branch ≠ "" then [GitOp.clone, GitOp.checkout] else [GitOp.clone]
      if g GitOp.setOrigin = false then
        { ops := opsHead ++ [.setOrigin], errors := [.setOrigin], cloneInc := 1 }
      else if cfg.fetchAll then
        if g GitOp.fetchAll = false then
          { ops := opsHead ++ [.setOrigin, .fetchAll], errors := [.fetchAll], cloneInc := 1 }
        else
          { ops := opsHead ++ [.setOrigin, .fetchAll], cloneInc := 1,
            successLabel := some "cloning" }
      else
        { ops := opsHead ++ [.setOrigin], cloneInc := 1, successLabel := some "cloning" }

/-! ## Filter pipeline and executor aggregate -/

/-- `filterByRegex` (cmd/clone.go lines 285-298): keep the descriptors for
which `FindString` on the derived app-name returns a non-empty string.

```go
for i, r := range repos {
    re := regexp.MustCompile(regex)
    match := re.FindString(getAppNameFromURL(r.URL))
    if match != "" {
        filteredRepos = append(filteredRepos, repos[i])
    }
}
``` -/
def filterByRegex (p : RePat) (repos : List Repo) : List Repo :=
  repos.filter (fun r => findStringL p (getAppNameFromURL r.url).toList ≠ [])

/-- `getRepoCountOnly` (cmd/clone.go lines 301-310): count of non-wiki
descriptors. -/
def getRepoCountOnly (targets : List Repo) : Nat :=
  (targets.filter (fun t => t.isWiki = false)).length

/-- The parsed ghorgignore file as the world presents it: absent (stat
says not-exist), unreadable (open/scan fails), or its non-empty lines. -/
inductive IgnoreFile
  | absent
  | unreadable
  | lines (ls : List String)

/-- The oracle inputs of one run: stat results by path, git-operation
results by repository, the ignore file, and whether the destination root
directory is missing (so `createDirIfNotExist` would create it). -/
structure World where
  stat : String → StatResult
  gitRes : Repo → GitOp → Bool
  ignoreFile : IgnoreFile := .absent
  rootDirMissing : Bool := true

/-- The two filter stages of `CloneAllRepos` (lines 325-362): the regex
filter when `GHORG_MATCH_REGEX` is set, then the ghorgignore filter that
drops any descriptor whose URL contains an ignore line as a substring. -/
def survivorsAfterFilters (cfg : Config) (w : World) (ts : List Repo) : List Repo :=
  let t1 := match cfg.matchRegex with
    | none => ts
    | some p => filterByRegex p ts
  match w.ignoreFile with
  | .lines ls => t1.filter (fun r => (ls.any (fun ig => occursL ig.toList r.url.toList)) = false)
  | _ => t1

/-- Observable side effects of a run that the claims mention. -/
inductive Effect
  | print (s : String)
  | mkdir (p : String)
  | gitCall (op : GitOp) (url : String)
deriving DecidableEq

/-- `printDryRun` (cmd/clone.go lines 312-319): one print per surviving
URL, then the destination-count line. -/
def printDryRun (cfg : Config) (repos : List Repo) : List Effect :=
  repos.map (fun r => Effect.print r.url) ++
    [Effect.print (toString repos.length ++ " repos to be cloned into: " ++
      cfg.absRoot ++ cfg.parentFolder)]

/-- Digit-run value used by `goAtoi`. -/
def digitsVal (l : List Char) : Option Nat :=
  if l = [] then none
  else if l.all (fun c => c.isDigit) then
    some (l.foldl (fun a c => a * 10 + (c.toNat - 48)) 0)
  else none

/-- Model of Go's `strconv.Atoi`: optional sign followed by at least one
digit; anything else is an error (`none`).  Overflow of 64-bit integers is
not modelled. -/
def goAtoi (s : String) : Option Int :=
  match s.toList with
  | '+' :: rest => (digitsVal rest).map (fun n => (n : Int))
  | '-' :: rest => (digitsVal rest).map (fun n => -(n : Int))
  | l => (digitsVal l).map (fun n => (n : Int))

/-- Process exit: `exited n` models `os.Exit(n)` (with `log.Fatal` as
`exited 1`); `normal` means the function returned and the process ends
with a success status. -/
inductive ExitCode
  | normal
  | exited (code : Nat)
deriving DecidableEq

/-- What one run produced: effects, how the process ended, whether the
bounded executor was started, the two counters and the sizes of the two
outcome lists. -/
structure RunResult where
  effects : List Effect := []
  exit : ExitCode := .normal
  executorRan : Bool := false
  cloneCount : Nat := 0
  pulledCount : Nat := 0
  infoCount : Nat := 0
  errorCount : Nat := 0
deriving DecidableEq

/-- The per-descriptor outcomes of the bounded executor, in submission
order (the executor runs every descriptor's worker to completion; shared
counters and lists are modelled as the per-worker contributions, summed
below). -/
def runAllOutcomes (cfg : Config) (w : World) (ts : List Repo) : List Outcome :=
  ts.map (fun t => processRepo cfg (w.gitRes t) w.stat t)

/-- The git-call effects of the executor phase, per descriptor in
submission order. -/
def execEffects (cfg : Config) (w : World) (ts : List Repo) : List Effect :=
  (ts.map (fun t =>
    (processRepo cfg (w.gitRes t) w.stat t).ops.map (fun op => Effect.gitCall op t.url))).flatten

/-- `CloneAllRepos` (cmd/clone.go lines 322-568): filters, the ghorgignore
read (unreadable file exits 1), the dry-run short-circuit, directory
creation, the `GHORG_CONCURRENCY` parse (`log.Fatal` on error), then the
bounded executor over every surviving descriptor and the final summary.
The function itself never exits with a failure once the executor starts. -/
def CloneAllRepos (cfg : Config) (w : World) (cloneTargets : List Repo) : RunResult :=
  match w.ignoreFile with
  | .unreadable => { exit := .exited 1 }
  | _ =>
    let survivors := survivorsAfterFilters cfg w cloneTargets
    if cfg.dryRun then
      { effects := printDryRun cfg survivors }
    else
      let mkEff : List Effect := if w.rootDirMissing then [Effect.mkdir cfg.absRoot] else []
      match goAtoi cfg.concurrency with
      | none => { effects := mkEff, exit := .exited 1 }
      | some _ =>
        let outs := runAllOutcomes cfg w survivors
        { effects := mkEff ++ execEffects cfg w survivors,
          executorRan := true,
          cloneCount := (outs.map (fun o => o.cloneInc)).sum,
          pulledCount := (outs.map (fun o => o.pullInc)).sum,
          infoCount := (outs.map (fun o => o.infos.length)).sum,
          errorCount := (outs.map (fun o => o.errors.length)).sum }

/-- The pre-flight sequence of `cloneFunc`/`setupRepoClone`
(cmd/clone.go lines 149-192) followed by `CloneAllRepos`:
`configs.VerifyTokenSet` failure exits 1, `VerifyConfigsSetCorrectly`
failure exits 1, an unsupported `GHORG_CLONE_TYPE` exits 1, a provider
error exits 1, and an empty provider result exits with `os.Exit(0)`.
The three boolean pre-flight checks and the provider call live outside
`cmd/clone.go` and are modelled as oracle inputs; the exit codes taken on
their failure are those of `cmd/clone.go` itself. -/
def ghorgRun (tokenOk configsOk cloneTypeOk : Bool) (provider : Option (List Repo))
    (cfg : Config) (w : World) : RunResult :=
  if tokenOk = false then { exit := .exited 1 }
  else if configsOk = false then { exit := .exited 1 }
  else if cloneTypeOk = false then { exit := .exited 1 }
  else match provider with
    | none => { exit := .exited 1 }
    | some ts =>
      if ts.length = 0 then { exit := .exited 0 }
      else CloneAllRepos cfg w ts

/-! ## Projection-through-ite helpers -/

theorem ite_ops (c : Prop) [Decidable c] (a b : Outcome) :
    (if c then a else b).ops = if c then a.ops else b.ops := by
  split <;> rfl

theorem ite_infos (c : Prop) [Decidable c] (a b : Outcome) :
    (if c then a else b).infos = if c then a.infos else b.infos := by
  split <;> rfl

theorem ite_errors (c : Prop) [Decidable c] (a b : Outcome) :
    (if c then a else b).errors = if c then a.errors else b.errors := by
  split <;> rfl

theorem ite_cloneInc (c : Prop) [Decidable c] (a b : Outcome) :
    (if c then a else b).cloneInc = if c then a.cloneInc else b.cloneInc := by
  split <;> rfl

theorem ite_pullInc (c : Prop) [Decidable c] (a b : Outcome) :
    (if c then a else b).pullInc = if c then a.pullInc else b.pullInc := by
  split <;> rfl

theorem ite_successLabel (c : Prop) [Decidable c] (a b : Outcome) :
    (if c then a else b).successLabel = if c then a.successLabel else b.successLabel := by
  split <;> rfl

/-! ## C10 — repoExistsLocally routing -/

/-- C10: `repoExistsLocally` returns false only for a not-exist stat error;
every other stat outcome (success, permission error, I/O error) counts as
"exists locally", so the worker never attempts a clone for it and starts
with the first operation of the exists-branch of its mode (update-remote
under backup, fetch-all under no-clean, checkout otherwise). -/
theorem c10_exists_locally (st : StatResult) (cfg : Config) (g : GitOp → Bool) (r : Repo)
    (h : st ≠ StatResult.errNotExist) :
    repoExistsLocally StatResult.errNotExist = false ∧
    repoExistsLocally st = true ∧
    GitOp.clone ∉ (processRepo cfg g (fun _ => st) r).ops ∧
    (processRepo cfg g (fun _ => st) r).ops.head? =
      some (if cfg.backup then GitOp.updateRemote
            else if cfg.noClean then GitOp.fetchAll else GitOp.checkout) := by
  have hex : repoExistsLocally st = true := by
    cases st with
    | errNotExist => exact absurd rfl h
    | ok => rfl
    | errOther => rfl
  refine ⟨rfl, hex, ?_, ?_⟩ <;>
  · simp [processRepo, hex, ite_ops]
    repeat' split
    all_goals simp_all

/-- Witness for `c10_exists_locally`: a permission-style stat error routes a
repository whose destination was never created down the pull branch. -/
theorem c10_exists_locally_witness :
    repoExistsLocally StatResult.errNotExist = false ∧
    repoExistsLocally StatResult.errOther = true ∧
    GitOp.clone ∉ (processRepo {} (fun _ => true) (fun _ => StatResult.errOther)
      { url := "https://host/org/app.git" }).ops ∧
    (processRepo {} (fun _ => true) (fun _ => StatResult.errOther)
      { url := "https://host/org/app.git" }).ops.head? = some GitOp.checkout :=
  c10_exists_locally StatResult.errOther {} (fun _ => true)
    { url := "https://host/org/app.git" } (by decide)

/-! ## C5 — the default resync sequence -/

/-- The ordered operation sequence of the default resync path:
checkout, clean, reset, pull, then fetch-all when enabled. -/
def pullSeq (fetchAll : Bool) : List GitOp :=
  [.checkout, .clean, .reset, .pull] ++ (if fetchAll then [.fetchAll] else [])

/-- The operations actually attempted when each is run in order and the
first failure stops the sequence (the failing operation is attempted). -/
def takeThroughFail (g : GitOp → Bool) : List GitOp → List GitOp
  | [] => []
  | op :: rest => if g op then op :: takeThroughFail g rest else [op]

/-- C5: for a non-wiki descriptor whose destination exists locally, with
backup and no-clean both off, the worker attempts exactly the prefix of
checkout → clean → reset → pull → (fetch-all when enabled) up to and
including the first failure; a failure records exactly one message
(informational only for checkout) and skips the remaining steps;
`pulledCount` is incremented exactly when the sequence reaches a
successful pull; and the executor still processes every other descriptor
(one outcome per submitted descriptor, regardless of failures). -/
theorem c5_default_resync (cfg : Config) (g : GitOp → Bool) (stat : String → StatResult)
    (target : Repo) (hw : target.isWiki = false)
    (hex : repoExistsLocally (stat (resolveHostPath cfg target)) = true)
    (hb : cfg.backup = false) (hn : cfg.noClean = false) :
    (processRepo cfg g stat target).ops = takeThroughFail g (pullSeq cfg.fetchAll) ∧
    ((processRepo cfg g stat target).pullInc = 1 ↔
      (g GitOp.checkout = true ∧ g GitOp.clean = true ∧
       g GitOp.reset = true ∧ g GitOp.pull = true)) ∧
    (processRepo cfg g stat target).cloneInc = 0 ∧
    ((processRepo cfg g stat target).infos.length + (processRepo cfg g stat target).errors.length
      = if (pullSeq cfg.fetchAll).all g = true then 0 else 1) ∧
    ((processRepo cfg g stat target).infos ≠ [] →
      (processRepo cfg g stat target).infos = [GitOp.checkout] ∧
      (processRepo cfg g stat target).errors = []) ∧
    (∀ (w : World) (ts : List Repo), (runAllOutcomes cfg w ts).length = ts.length) := by
  refine ⟨?_, ?_, ?_, ?_, ?_, fun w ts => by simp [runAllOutcomes]⟩ <;>
  · cases hck : g GitOp.checkout <;> cases hcl : g GitOp.clean <;>
      cases hrs : g GitOp.reset <;> cases hpl : g GitOp.pull <;>
      cases hfe : cfg.fetchAll <;> cases hfa : g GitOp.fetchAll <;>
      simp_all [processRepo, pullSeq, takeThroughFail]

/-- Witness for `c5_default_resync`: an all-success oracle over an existing
destination runs the whole sequence and pulls. -/
theorem c5_default_resync_witness :
    (processRepo {} (fun _ => true) (fun _ => StatResult.ok)
      { url := "https://host/org/app.git" }).ops = takeThroughFail (fun _ => true) (pullSeq false) ∧
    ((processRepo {} (fun _ => true) (fun _ => StatResult.ok)
      { url := "https://host/org/app.git" }).pullInc = 1 ↔
      ((fun _ : GitOp => true) GitOp.checkout = true ∧ (fun _ : GitOp => true) GitOp.clean = true ∧
       (fun _ : GitOp => true) GitOp.reset = true ∧ (fun _ : GitOp => true) GitOp.pull = true)) ∧
    (processRepo {} (fun _ => true) (fun _ => StatResult.ok)
      { url := "https://host/org/app.git" }).cloneInc = 0 ∧
    ((processRepo {} (fun _ => true) (fun _ => StatResult.ok)
      { url := "https://host/org/app.git" }).infos.length +
     (processRepo {} (fun _ => true) (fun _ => StatResult.ok)
      { url := "https://host/org/app.git" }).errors.length
      = if (pullSeq false).all (fun _ => true) = true then 0 else 1) ∧
    ((processRepo {} (fun _ => true) (fun _ => StatResult.ok)
      { url := "https://host/org/app.git" }).infos ≠ [] →
      (processRepo {} (fun _ => true) (fun _ => StatResult.ok)
        { url := "https://host/org/app.git" }).infos = [GitOp.checkout] ∧
      (processRepo {} (fun _ => true) (fun _ => StatResult.ok)
        { url := "https://host/org/app.git" }).errors = []) ∧
    (∀ (w : World) (ts : List Repo),
      (runAllOutcomes {} w ts).length = ts.length) :=
  c5_default_resync {} (fun _ => true) (fun _ => StatResult.ok)
    { url := "https://host/org/app.git" } (by decide) (by decide) (by decide) (by decide)

/-! ## C1 — wiki failure downgrade -/

/-- C1: the claim says a wiki descriptor's failure at any operation of any
mode is recorded as an informational notice, never as an error.
Counterexample: a wiki whose destination exists locally, in the default
resync mode, whose checkout succeeds and whose clean fails, is recorded in
the error list (`cloneErrors`), with no informational notice. -/
theorem c1_counterexample :
    ({ url := "https://host/org/app.wiki.git", isWiki := true } : Repo).isWiki = true ∧
    (processRepo {} (fun op => match op with | GitOp.clean => false | _ => true)
      (fun _ => StatResult.ok)
      { url := "https://host/org/app.wiki.git", isWiki := true }).errors = [GitOp.clean] ∧
    (processRepo {} (fun op => match op with | GitOp.clean => false | _ => true)
      (fun _ => StatResult.ok)
      { url := "https://host/org/app.wiki.git", isWiki := true }).infos = [] := by
  refine ⟨rfl, ?_, ?_⟩ <;> decide

/-- C1 (amended): the wiki downgrade applies only to the first operation of
each mode's sequence — update-remote in backup mode, fetch-all in no-clean
mode, clone on the clone path (conjuncts 1-3); checkout failure is
downgraded to informational for every repository, wiki or not, on both the
default resync path and the clone path (conjuncts 4-5); and a failure at
any later step — clean, reset, pull, fetch-all after a pull, set-origin,
fetch-all after a clone — is recorded as an error for every repository,
wikis included (conjuncts 6-11). -/
theorem c1_wiki_downgrade_amended (cfg : Config) (g : GitOp → Bool)
    (stat : String → StatResult) (r : Repo) :
    (r.isWiki = true → repoExistsLocally (stat (resolveHostPath cfg r)) = true →
      cfg.backup = true → g GitOp.updateRemote = false →
      (processRepo cfg g stat r).infos = [GitOp.updateRemote] ∧
      (processRepo cfg g stat r).errors = []) ∧
    (r.isWiki = true → repoExistsLocally (stat (resolveHostPath cfg r)) = true →
      cfg.backup = false → cfg.noClean = true → g GitOp.fetchAll = false →
      (processRepo cfg g stat r).infos = [GitOp.fetchAll] ∧
      (processRepo cfg g stat r).errors = []) ∧
    (r.isWiki = true → repoExistsLocally (stat (resolveHostPath cfg r)) = false →
      g GitOp.clone = false →
      (processRepo cfg g stat r).infos = [GitOp.clone] ∧
      (processRepo cfg g stat r).errors = []) ∧
    (repoExistsLocally (stat (resolveHostPath cfg r)) = true → cfg.backup = false →
      cfg.noClean = false → g GitOp.checkout = false →
      (processRepo cfg g stat r).infos = [GitOp.checkout] ∧
      (processRepo cfg g stat r).errors = []) ∧
    (repoExistsLocally (stat (resolveHostPath cfg r)) = false → g GitOp.clone = true →
      cfg.branch ≠ "" → g GitOp.checkout = false →
      (processRepo cfg g stat r).infos = [GitOp.checkout] ∧
      (processRepo cfg g stat r).errors = []) ∧
    (repoExistsLocally (stat (resolveHostPath cfg r)) = true → cfg.backup = false →
      cfg.noClean = false → g GitOp.checkout = true → g GitOp.clean = false →
      (processRepo cfg g stat r).errors = [GitOp.clean] ∧
      (processRepo cfg g stat r).infos = []) ∧
    (repoExistsLocally (stat (resolveHostPath cfg r)) = true → cfg.backup = false →
      cfg.noClean = false → g GitOp.checkout = true → g GitOp.clean = true →
      g GitOp.reset = false →
      (processRepo cfg g stat r).errors = [GitOp.reset] ∧
      (processRepo cfg g stat r).infos = []) ∧
    (repoExistsLocally (stat (resolveHostPath cfg r)) = true → cfg.backup = false →
      cfg.noClean = false → g GitOp.checkout = true → g GitOp.clean = true →
      g GitOp.reset = true → g GitOp.pull = false →
      (processRepo cfg g stat r).errors = [GitOp.pull] ∧
      (processRepo cfg g stat r).infos = []) ∧
    (repoExistsLocally (stat (resolveHostPath cfg r)) = true → cfg.backup = false →
      cfg.noClean = false → g GitOp.checkout = true → g GitOp.clean = true →
      g GitOp.reset = true → g GitOp.pull = true → cfg.fetchAll = true →
      g GitOp.fetchAll = false →
      (processRepo cfg g stat r).errors = [GitOp.fetchAll] ∧
      (processRepo cfg g stat r).infos = []) ∧
    (repoExistsLocally (stat (resolveHostPath cfg r)) = false → g GitOp.clone = true →
      (cfg.branch ≠ "" → g GitOp.checkout = true) → g GitOp.setOrigin = false →
      (processRepo cfg g stat r).errors = [GitOp.setOrigin] ∧
      (processRepo cfg g stat r).infos = []) ∧
    (repoExistsLocally (stat (resolveHostPath cfg r)) = false → g GitOp.clone = true →
      (cfg.branch ≠ "" → g GitOp.checkout = true) → g GitOp.setOrigin = true →
      cfg.fetchAll = true → g GitOp.fetchAll = false →
      (processRepo cfg g stat r).errors = [GitOp.fetchAll] ∧
      (processRepo cfg g stat r).infos = []) := by
  refine ⟨?_, ?_, ?_, ?_, ?_, ?_, ?_, ?_, ?_, ?_, ?_⟩ <;>
  · intros
    by_cases hbr : cfg.branch = "" <;> constructor <;> simp_all [processRepo]

/-- Witness for `c1_wiki_downgrade_amended`: a wiki whose clone fails is
informational only; a checkout failure is informational for a non-wiki
repository; and a wiki's set-origin failure after a successful clone is
recorded as an error. -/
theorem c1_wiki_downgrade_amended_witness :
    ((processRepo {} (fun op => match op with | GitOp.clone => false | _ => true)
      (fun _ => StatResult.errNotExist)
      { url := "https://host/org/app.wiki.git", isWiki := true }).infos = [GitOp.clone] ∧
     (processRepo {} (fun op => match op with | GitOp.clone => false | _ => true)
      (fun _ => StatResult.errNotExist)
      { url := "https://host/org/app.wiki.git", isWiki := true }).errors = []) ∧
    ((processRepo {} (fun op => match op with | GitOp.checkout => false | _ => true)
      (fun _ => StatResult.ok)
      { url := "https://host/org/app.git" }).infos = [GitOp.checkout] ∧
     (processRepo {} (fun op => match op with | GitOp.checkout => false | _ => true)
      (fun _ => StatResult.ok)
      { url := "https://host/org/app.git" }).errors = []) ∧
    ((processRepo {} (fun op => match op with | GitOp.setOrigin => false | _ => true)
      (fun _ => StatResult.errNotExist)
      { url := "https://host/org/app.wiki.git", isWiki := true }).errors = [GitOp.setOrigin] ∧
     (processRepo {} (fun op => match op with | GitOp.setOrigin => false | _ => true)
      (fun _ => StatResult.errNotExist)
      { url := "https://host/org/app.wiki.git", isWiki := true }).infos = []) :=
  ⟨(c1_wiki_downgrade_amended {} (fun op => match op with | GitOp.clone => false | _ => true)
      (fun _ => StatResult.errNotExist)
      { url := "https://host/org/app.wiki.git", isWiki := true }).2.2.1 rfl rfl rfl,
   (c1_wiki_downgrade_amended {} (fun op => match op with | GitOp.checkout => false | _ => true)
      (fun _ => StatResult.ok)
      { url := "https://host/org/app.git" }).2.2.2.1 rfl rfl rfl rfl,
   (c1_wiki_downgrade_amended {} (fun op => match op with | GitOp.setOrigin => false | _ => true)
      (fun _ => StatResult.errNotExist)
      { url := "https://host/org/app.wiki.git", isWiki := true }).2.2.2.2.2.2.2.2.2.1
      rfl rfl (fun h => absurd rfl h) rfl⟩

/-! ## C2 — terminal-bucket accounting -/

/-- Per-descriptor contribution to the claim's terminal buckets:
counter increments plus recorded messages, summed over the executor's
outcomes. -/
def bucketTotal (outs : List Outcome) : Nat :=
  (outs.map (fun o => o.cloneInc + o.pullInc + o.infos.length + o.errors.length)).sum

/-- C2: the claim says clonedCount + pulledCount + messages equals the
number of non-wiki descriptors, each descriptor landing in exactly one
bucket, and in particular a clone success followed by a set-origin failure
is not counted twice.  Counterexample: one non-wiki descriptor whose clone
succeeds and whose set-origin fails increments `cloneCount` (the increment
precedes the set-origin call) AND records an error, so the sum is 2 for a
single descriptor. -/
theorem c2_counterexample :
    bucketTotal (runAllOutcomes {}
      (World.mk (fun _ => StatResult.errNotExist)
        (fun _ op => match op with | GitOp.setOrigin => false | _ => true)
        IgnoreFile.absent true)
      [{ url := "https://host/org/app.git" }]) = 2 ∧
    getRepoCountOnly [({ url := "https://host/org/app.git" } : Repo)] = 1 := by
  refine ⟨?_, ?_⟩ <;> decide

/-- Per-descriptor form of the amended C2 accounting. -/
theorem processRepo_bucket_one (cfg : Config) (g : GitOp → Bool) (stat : String → StatResult)
    (t : Repo) (hb : cfg.backup = false) (hn : cfg.noClean = false)
    (hso : g GitOp.setOrigin = true) (hfa : cfg.fetchAll = true → g GitOp.fetchAll = true) :
    (processRepo cfg g stat t).cloneInc + (processRepo cfg g stat t).pullInc +
      (processRepo cfg g stat t).infos.length + (processRepo cfg g stat t).errors.length = 1 := by
  cases hex : repoExistsLocally (stat (resolveHostPath cfg t)) with
  | false =>
    by_cases hbr : cfg.branch = "" <;>
      cases hw : t.isWiki <;> cases hcn : g GitOp.clone <;>
      cases hck : g GitOp.checkout <;> cases hfe : cfg.fetchAll <;>
      simp_all [processRepo]
  | true =>
    cases hck : g GitOp.checkout <;> cases hcl : g GitOp.clean <;>
      cases hrs : g GitOp.reset <;> cases hpl : g GitOp.pull <;>
      cases hfe : cfg.fetchAll <;>
      simp_all [processRepo]

/-- C2 (amended): when every descriptor is non-wiki and lands on the clone
path or the default resync path (backup and no-clean both off), and the
post-increment operations succeed (set-origin, and fetch-all when enabled),
clonedCount + pulledCount + the message count equals the number of
non-wiki descriptors — each descriptor then contributes exactly one
terminal bucket.  (Without those provisos the identity fails: a set-origin
or fetch-all failure after a counted clone/pull contributes twice, a
backup- or no-clean-mode success contributes nothing, and a wiki whose
clone or pull succeeds is counted in the counters too.) -/
theorem c2_bucket_amended (cfg : Config) (w : World) (ts : List Repo)
    (hb : cfg.backup = false) (hn : cfg.noClean = false)
    (hwk : ∀ t ∈ ts, t.isWiki = false)
    (hso : ∀ t ∈ ts, w.gitRes t GitOp.setOrigin = true)
    (hfa : ∀ t ∈ ts, cfg.fetchAll = true → w.gitRes t GitOp.fetchAll = true) :
    bucketTotal (runAllOutcomes cfg w ts) = getRepoCountOnly ts := by
  induction ts with
  | nil => rfl
  | cons t ts ih =>
    have hw : t.isWiki = false := hwk t (List.mem_cons_self t ts)
    have h1 := processRepo_bucket_one cfg (w.gitRes t) w.stat t hb hn
      (hso t (List.mem_cons_self t ts)) (hfa t (List.mem_cons_self t ts))
    have h2 := ih (fun x hx => hwk x (List.mem_cons_of_mem t hx))
      (fun x hx => hso x (List.mem_cons_of_mem t hx))
      (fun x hx => hfa x (List.mem_cons_of_mem t hx))
    have h3 : getRepoCountOnly (t :: ts) = 1 + getRepoCountOnly ts := by
      simp [getRepoCountOnly, List.filter_cons, hw, Nat.add_comm]
    simp only [runAllOutcomes, List.map_cons, bucketTotal, List.sum_cons] at h2 ⊢
    rw [h1, h3]
    omega

/-- Witness for `c2_bucket_amended`: one non-wiki fresh clone with an
all-success oracle contributes exactly one bucket. -/
theorem c2_bucket_amended_witness :
    bucketTotal (runAllOutcomes {}
      (World.mk (fun _ => StatResult.errNotExist) (fun _ _ => true) IgnoreFile.absent true)
      [{ url := "https://host/org/app.git" }]) =
    getRepoCountOnly [({ url := "https://host/org/app.git" } : Repo)] :=
  c2_bucket_amended {}
    (World.mk (fun _ => StatResult.errNotExist) (fun _ _ => true) IgnoreFile.absent true)
    [{ url := "https://host/org/app.git" }] rfl rfl
    (by decide) (fun _ _ => rfl) (fun _ _ _ => rfl)

/-! ## C4 — hostPath resolution -/

theorem hasSuffix_append (s t : String) : hasSuffix (s ++ t) t = true := by
  have h : (s ++ t).toList = s.toList ++ t.toList := by
    simp [String.toList, String.data_append]
  rw [hasSuffix, h, List.reverse_append]
  exact (prefAt_iff _ _).mpr ⟨s.toList.reverse, rfl⟩

/-- C4: the claim says a wiki descriptor processed in backup mode receives
both the backup suffix and the `.wiki` suffix.  Counterexample: with
backup mode on, the code recomputes `HostPath` from scratch out of `path`
(cmd/clone.go line 414), discarding the `.wiki` suffix appended at lines
407-411, so the resolved path of a wiki carries only the `_backup` parent
and no `.wiki` suffix. -/
theorem c4_counterexample :
    resolveHostPath { backup := true }
      { url := "https://host/org/app.git", isWiki := true } = "/clones/org_backup/app" ∧
    hasSuffix (resolveHostPath { backup := true }
      { url := "https://host/org/app.git", isWiki := true }) ".wiki" = false := by
  refine ⟨?_, ?_⟩ <;> decide

/-- C4 (amended): the resolved hostPath is absolute root + parent folder +
(preserved path when enabled and non-empty, else the app-name), with a
`.wiki` suffix for wiki descriptors; but when backup mode is active the
path is recomputed as root + parent-folder + "_backup" + the same path
component, so it does not depend on `isWiki` at all and a wiki in backup
mode gets only the backup suffix, not `.wiki`. -/
theorem c4_hostpath_amended (cfg : Config) (r : Repo) :
    (cfg.backup = true →
      resolveHostPath cfg r =
        joinPath [cfg.absRoot, cfg.parentFolder ++ "_backup", pathPart cfg r] ∧
      resolveHostPath cfg { r with isWiki := true } =
        resolveHostPath cfg { r with isWiki := false }) ∧
    (cfg.backup = false → r.isWiki = true →
      hasSuffix (resolveHostPath cfg r) ".wiki" = true) ∧
    (cfg.backup = false → r.isWiki = false →
      resolveHostPath cfg r = joinPath [cfg.absRoot, cfg.parentFolder, pathPart cfg r]) := by
  refine ⟨fun hb => ⟨?_, ?_⟩, fun hb hw => ?_, fun hb hw => ?_⟩
  · simp [resolveHostPath, hb]
  · simp [resolveHostPath, pathPart, hb]
  · simp only [resolveHostPath, hb, hw]
    simp only [Bool.false_eq_true, if_false, if_true]
    split
    · assumption
    · exact hasSuffix_append _ _
  · simp [resolveHostPath, hb, hw]

/-- Witness for `c4_hostpath_amended`: a non-backup wiki path ends in
`.wiki`. -/
theorem c4_hostpath_amended_witness :
    hasSuffix (resolveHostPath {}
      { url := "https://host/org/app.git", isWiki := true }) ".wiki" = true :=
  (c4_hostpath_amended {} { url := "https://host/org/app.git", isWiki := true }).2.1 rfl rfl

/-! ## C6 — regex filter -/

theorem findStringL_lit_ne (s t : List Char) :
    findStringL (RePat.lit s) t ≠ [] ↔ (s ≠ [] ∧ ∃ pre post, t = pre ++ s ++ post) := by
  by_cases h : occursL s t = true
  · have hf : findStringL (RePat.lit s) t = s := by simp [findStringL, h]
    rw [hf]
    exact ⟨fun hs => ⟨hs, (occursL_iff s t).mp h⟩, fun hp => hp.1⟩
  · constructor
    · intro hne
      exact absurd (by simp [findStringL, h]) hne
    · rintro ⟨hs, hex⟩
      exact (h ((occursL_iff s t).mpr hex)).elim

theorem findStringL_star_ne (c : Char) (t : List Char) :
    findStringL (RePat.star c) t ≠ [] ↔ t.head? = some c := by
  cases t with
  | nil => simp [findStringL]
  | cons a l =>
    cases hac : a == c <;>
      simp_all [findStringL, List.takeWhile_cons]

/-- C6: the claim says the filter keeps exactly those descriptors whose
app-name contains a match of the pattern anywhere — including patterns
whose only match is the empty string.  Counterexample: the pattern `z*`
matches the empty string, which every app-name contains (at its start in
particular), yet `FindString` returns the empty leftmost match and the
`match != ""` test drops the descriptor: the filter keeps nothing. -/
theorem c6_counterexample :
    filterByRegex (RePat.star 'z') [({ url := "https://host/org/app.git" } : Repo)] = [] ∧
    MatchesL (RePat.star 'z') [] ∧
    (getAppNameFromURL "https://host/org/app.git").toList =
      [] ++ [] ++ (getAppNameFromURL "https://host/org/app.git").toList := by
  refine ⟨by decide, ?_, rfl⟩
  intro x hx
  exact absurd hx (List.not_mem_nil x)

/-- C6 (amended): the filter keeps exactly the descriptors whose derived
app-name gives a non-empty `FindString` result for the compiled pattern,
and preserves the relative order of survivors.  For a literal pattern that
means a non-empty literal occurring anywhere in the app-name (unanchored
partial match); for a star pattern `c*`, whose leftmost match sits at
position 0, it means the app-name starts with `c` — a later non-empty
match does not save the descriptor, and a pattern whose leftmost match is
empty drops it.  (Invalid patterns are compiled with `regexp.MustCompile`,
whose panic aborts the run; compilation is outside this model.) -/
theorem c6_regex_filter_amended (p : RePat) (rs : List Repo) :
    (filterByRegex p rs).Sublist rs ∧
    (∀ r : Repo, r ∈ filterByRegex p rs ↔
      (r ∈ rs ∧ findStringL p (getAppNameFromURL r.url).toList ≠ [])) ∧
    (∀ s t : List Char, findStringL (RePat.lit s) t ≠ [] ↔
      (s ≠ [] ∧ ∃ pre post, t = pre ++ s ++ post)) ∧
    (∀ (c : Char) (t : List Char), findStringL (RePat.star c) t ≠ [] ↔ t.head? = some c) := by
  refine ⟨List.filter_sublist rs, fun r => ?_, findStringL_lit_ne, findStringL_star_ne⟩
  simp [filterByRegex, List.mem_filter]

/-- Witness for `c6_regex_filter_amended`: a literal pattern occurring in
the app-name keeps the descriptor. -/
theorem c6_regex_filter_amended_witness :
    ({ url := "https://host/org/app.git" } : Repo) ∈
      filterByRegex (RePat.lit "pp".toList) [({ url := "https://host/org/app.git" } : Repo)] :=
  ((c6_regex_filter_amended (RePat.lit "pp".toList)
      [({ url := "https://host/org/app.git" } : Repo)]).2.1
    { url := "https://host/org/app.git" }).mpr ⟨by decide, by decide⟩

/-! ## Shared facts about `CloneAllRepos` control flow -/

theorem cloneAllRepos_parse_fail (cfg : Config) (w : World) (ts : List Repo)
    (hig : w.ignoreFile ≠ IgnoreFile.unreadable) (hdr : cfg.dryRun = false)
    (hn : goAtoi cfg.concurrency = none) :
    (CloneAllRepos cfg w ts).exit = ExitCode.exited 1 ∧
    (CloneAllRepos cfg w ts).executorRan = false := by
  cases hw : w.ignoreFile with
  | unreadable => exact absurd hw hig
  | absent => constructor <;> simp [CloneAllRepos, hw, hdr, hn]
  | lines ls => constructor <;> simp [CloneAllRepos, hw, hdr, hn]

theorem cloneAllRepos_parse_ok (cfg : Config) (w : World) (ts : List Repo) (l : Int)
    (hig : w.ignoreFile ≠ IgnoreFile.unreadable) (hdr : cfg.dryRun = false)
    (hl : goAtoi cfg.concurrency = some l) :
    (CloneAllRepos cfg w ts).executorRan = true ∧
    (CloneAllRepos cfg w ts).exit = ExitCode.normal := by
  cases hw : w.ignoreFile with
  | unreadable => exact absurd hw hig
  | absent => constructor <;> simp [CloneAllRepos, hw, hdr, hl]
  | lines ls => constructor <;> simp [CloneAllRepos, hw, hdr, hl]

theorem cloneAllRepos_dryRun (cfg : Config) (w : World) (ts : List Repo)
    (hd : cfg.dryRun = true) (hig : w.ignoreFile ≠ IgnoreFile.unreadable) :
    CloneAllRepos cfg w ts =
      { effects := printDryRun cfg (survivorsAfterFilters cfg w ts) } := by
  cases hw : w.ignoreFile with
  | unreadable => exact absurd hw hig
  | absent => simp [CloneAllRepos, survivorsAfterFilters, hw, hd]
  | lines ls => simp [CloneAllRepos, survivorsAfterFilters, hw, hd]

/-! ## C7 — concurrency validation -/

/-- C7: the claim says a non-positive concurrency value is rejected as a
fatal configuration error before any clone/pull work begins.
Counterexample: `strconv.Atoi("0")` succeeds, the code only checks the
parse error (cmd/clone.go lines 382-386), so with `GHORG_CONCURRENCY="0"`
the limiter is created and the executor starts. -/
theorem c7_counterexample :
    goAtoi "0" = some 0 ∧ ¬ ((0 : Int) > 0) ∧
    (ghorgRun true true true (some [{ url := "https://host/org/app.git" }])
      { concurrency := "0" }
      (World.mk (fun _ => StatResult.errNotExist) (fun _ _ => true)
        IgnoreFile.absent true)).executorRan = true ∧
    (ghorgRun true true true (some [{ url := "https://host/org/app.git" }])
      { concurrency := "0" }
      (World.mk (fun _ => StatResult.errNotExist) (fun _ _ => true)
        IgnoreFile.absent true)).exit = ExitCode.normal := by
  refine ⟨by decide, by decide, by decide, by decide⟩

/-- C7 (amended): only a `GHORG_CONCURRENCY` value that `strconv.Atoi`
rejects (non-numeric) is a fatal error before the executor starts; every
value Atoi accepts — zero and negative integers included — lets the
executor start. -/
theorem c7_concurrency_amended (cfg : Config) (w : World) (ts : List Repo)
    (hig : w.ignoreFile ≠ IgnoreFile.unreadable) (hdr : cfg.dryRun = false) :
    (goAtoi cfg.concurrency = none →
      (CloneAllRepos cfg w ts).exit = ExitCode.exited 1 ∧
      (CloneAllRepos cfg w ts).executorRan = false) ∧
    (∀ l : Int, goAtoi cfg.concurrency = some l →
      (CloneAllRepos cfg w ts).executorRan = true ∧
      (CloneAllRepos cfg w ts).exit = ExitCode.normal) :=
  ⟨fun hn => cloneAllRepos_parse_fail cfg w ts hig hdr hn,
   fun l hl => cloneAllRepos_parse_ok cfg w ts l hig hdr hl⟩

/-- Witness for `c7_concurrency_amended`: a non-numeric value is fatal
before the executor. -/
theorem c7_concurrency_amended_witness :
    (CloneAllRepos { concurrency := "abc" }
      (World.mk (fun _ => StatResult.errNotExist) (fun _ _ => true)
        IgnoreFile.absent true) []).exit = ExitCode.exited 1 ∧
    (CloneAllRepos { concurrency := "abc" }
      (World.mk (fun _ => StatResult.errNotExist) (fun _ _ => true)
        IgnoreFile.absent true) []).executorRan = false :=
  (c7_concurrency_amended { concurrency := "abc" }
    (World.mk (fun _ => StatResult.errNotExist) (fun _ _ => true) IgnoreFile.absent true)
    [] (fun h => IgnoreFile.noConfusion h) rfl).1 (by decide)

/-! ## C8 — dry-run -/

/-- C8: with dry-run enabled (and a readable-or-absent ignore file), the
run prints every surviving descriptor's URL and the destination count,
performs no directory creation and no version-control call, never starts
the executor, and finishes normally with zero counters. -/
theorem c8_dry_run (cfg : Config) (w : World) (ts : List Repo)
    (hd : cfg.dryRun = true) (hig : w.ignoreFile ≠ IgnoreFile.unreadable) :
    (CloneAllRepos cfg w ts).executorRan = false ∧
    (CloneAllRepos cfg w ts).exit = ExitCode.normal ∧
    (CloneAllRepos cfg w ts).cloneCount = 0 ∧
    (CloneAllRepos cfg w ts).pulledCount = 0 ∧
    (∀ e ∈ (CloneAllRepos cfg w ts).effects,
      (∀ p, e ≠ Effect.mkdir p) ∧ (∀ op u, e ≠ Effect.gitCall op u)) ∧
    (∀ r ∈ survivorsAfterFilters cfg w ts,
      Effect.print r.url ∈ (CloneAllRepos cfg w ts).effects) ∧
    Effect.print (toString (survivorsAfterFilters cfg w ts).length ++
        " repos to be cloned into: " ++ cfg.absRoot ++ cfg.parentFolder) ∈
      (CloneAllRepos cfg w ts).effects := by
  rw [cloneAllRepos_dryRun cfg w ts hd hig]
  refine ⟨rfl, rfl, rfl, rfl, ?_, ?_, ?_⟩
  · intro e he
    simp only [printDryRun] at he
    rcases List.mem_append.mp he with hmem | hmem
    · rcases List.mem_map.mp hmem with ⟨r, _, rfl⟩
      exact ⟨fun p h => Effect.noConfusion h, fun op u h => Effect.noConfusion h⟩
    · rcases List.mem_singleton.mp hmem with rfl
      exact ⟨fun p h => Effect.noConfusion h, fun op u h => Effect.noConfusion h⟩
  · intro r hr
    simp only [printDryRun]
    exact List.mem_append_left _ (List.mem_map_of_mem _ hr)
  · simp only [printDryRun]
    exact List.mem_append_right _ (List.mem_singleton.mpr rfl)

/-- Witness for `c8_dry_run` at a concrete dry-run world. -/
theorem c8_dry_run_witness :
    (CloneAllRepos { dryRun := true }
      (World.mk (fun _ => StatResult.errNotExist) (fun _ _ => true)
        IgnoreFile.absent true) [{ url := "https://host/org/app.git" }]).executorRan = false :=
  (c8_dry_run { dryRun := true }
    (World.mk (fun _ => StatResult.errNotExist) (fun _ _ => true) IgnoreFile.absent true)
    [{ url := "https://host/org/app.git" }] rfl (fun h => IgnoreFile.noConfusion h)).1

/-! ## C3 — process exit statuses -/

/-- C3: the claim says every pre-flight failure — including zero matching
repositories — terminates with a failure (non-zero) status.
Counterexample: an empty provider result runs `os.Exit(0)`
(cmd/clone.go line 188), a success status. -/
theorem c3_counterexample :
    (ghorgRun true true true (some []) {}
      (World.mk (fun _ => StatResult.errNotExist) (fun _ _ => true)
        IgnoreFile.absent true)).exit = ExitCode.exited 0 ∧
    ExitCode.exited 0 ≠ ExitCode.exited 1 := by
  refine ⟨by decide, by decide⟩

/-- C3 (amended): the run always finishes with a process-level success
status once the executor starts, no matter how many per-repository errors
accumulate; a bad token, an unreadable ignore-file and a bad concurrency
value terminate with a failure status before the executor starts; but zero
matching repositories terminates with `os.Exit(0)` — a success status —
also before the executor starts. -/
theorem c3_exit_amended (conf ctype : Bool) (ts : List Repo) (cfg : Config) (w : World) :
    (∀ provider : Option (List Repo),
      (ghorgRun false conf ctype provider cfg w).exit = ExitCode.exited 1 ∧
      (ghorgRun false conf ctype provider cfg w).executorRan = false) ∧
    ((ghorgRun true true true (some []) cfg w).exit = ExitCode.exited 0 ∧
      (ghorgRun true true true (some []) cfg w).executorRan = false) ∧
    (ts ≠ [] → w.ignoreFile = IgnoreFile.unreadable →
      (ghorgRun true true true (some ts) cfg w).exit = ExitCode.exited 1 ∧
      (ghorgRun true true true (some ts) cfg w).executorRan = false) ∧
    (ts ≠ [] → w.ignoreFile ≠ IgnoreFile.unreadable → cfg.dryRun = false →
      goAtoi cfg.concurrency = none →
      (ghorgRun true true true (some ts) cfg w).exit = ExitCode.exited 1 ∧
      (ghorgRun true true true (some ts) cfg w).executorRan = false) ∧
    (∀ l : Int, ts ≠ [] → w.ignoreFile ≠ IgnoreFile.unreadable →
      (cfg.dryRun = false → goAtoi cfg.concurrency = some l) →
      (ghorgRun true true true (some ts) cfg w).exit = ExitCode.normal) := by
  refine ⟨fun provider => ⟨rfl, rfl⟩, ⟨rfl, rfl⟩, ?_, ?_, ?_⟩
  · intro hne hw
    have hlen : ¬ ts.length = 0 := fun h => hne (List.length_eq_zero.mp h)
    constructor <;> simp [ghorgRun, hlen, CloneAllRepos, hw]
  · intro hne hig hdr hn
    have hlen : ¬ ts.length = 0 := fun h => hne (List.length_eq_zero.mp h)
    have h := cloneAllRepos_parse_fail cfg w ts hig hdr hn
    constructor <;> simp [ghorgRun, hlen, h.1, h.2]
  · intro l hne hig hpar
    have hlen : ¬ ts.length = 0 := fun h => hne (List.length_eq_zero.mp h)
    by_cases hdr : cfg.dryRun = true
    · have h := cloneAllRepos_dryRun cfg w ts hdr hig
      simp [ghorgRun, hlen, h]
    · have hdr' : cfg.dryRun = false := Bool.not_eq_true _ ▸ hdr
      have h := (cloneAllRepos_parse_ok cfg w ts l hig hdr' (hpar hdr')).2
      simp [ghorgRun, hlen, h]

/-- Witness for `c3_exit_amended`: zero repositories exit with status 0. -/
theorem c3_exit_amended_witness :
    (ghorgRun true true true (some []) {}
      (World.mk (fun _ => StatResult.ok) (fun _ _ => true)
        IgnoreFile.absent true)).exit = ExitCode.exited 0 :=
  (c3_exit_amended true true [] {}
    (World.mk (fun _ => StatResult.ok) (fun _ _ => true) IgnoreFile.absent true)).2.1.1

end Ghorg
